import Mathlib

set_option autoImplicit false

/-!
Shallow embedding of the `node-version-call-local` invocation dispatcher.

The repository's core is `bind` (src/bind.ts, returning `boundAsyncCaller`),
`bindSync` (src/index.ts second part, returning `boundSyncCaller`), the
immediate-call wrappers `call`/`callSync`, and the helpers
`resolveVersion` (src/bind.ts second part) and `deriveInstallPath`
(src/lib/deriveInstallPath.ts).

External collaborators (semver, env-path-key, node-exec-path's
`satisfiesSemverSync`, node-version-utils' `spawnOptions`, module loaders and
`function-exec-sync`) are modelled as opaque fields of a `World` record, and
worker argument/result values are an abstract type `V`.  Filesystem paths are
modelled as lists of path segments of an absolute path; `path.join` with
`".."` segments is the fold `pathJoin` below.

Each invocation is instrumented: the embedding returns, besides the
result/state, the number of Version Locator calls (`satisfiesSemverSync`,
reached through `resolveVersion`) and the list of Remote Executor calls
(`function-exec-sync` invocations, with the exact options and arguments
passed), so that spawn-count and locator-count properties are statable.
-/

namespace NodeVersionCallLocal

/-- Error values carry their message string. -/
abbrev ErrMsg := String

/-- Process-environment mappings (`NodeJS.ProcessEnv`) as association lists. -/
abbrev EnvMap := List (String × String)

/-- JavaScript property lookup `e[k]` on an environment object. -/
def envLookup (e : EnvMap) (k : String) : Option String :=
  (e.find? (fun p => p.1 == k)).map (fun p => p.2)

/-- JavaScript falsiness of `env[key]`: the property is absent (undefined) or
its value is the empty string. This is the truth value of `!opts.env[PATH_KEY]`
in the source. -/
def jsFalsyStr : Option String → Bool
  | none => true
  | some s => s == ""

/-- JavaScript `o || d` for an optional string option (empty string is falsy),
as in `opts.moduleType || 'auto'`. -/
def jsOrDefault (o : Option String) (d : String) : String :=
  match o with
  | some s => if s == "" then d else s
  | none => d

/-- One step of Node `path.join` normalization over path segments of an
absolute path: `"."` and empty segments vanish, `".."` pops the last
segment, and any other segment is appended. -/
def normStep (acc : List String) (s : String) : List String :=
  if s == "." || s == "" then acc
  else if s == ".." then acc.dropLast
  else acc ++ [s]

/-- Node `path.join(p, rest...)` on an absolute path `p` given as segments:
concatenate and normalize. -/
def pathJoin (p rest : List String) : List String :=
  (p ++ rest).foldl normStep []

/-- Derivation of the Node installation path from the executable path
(src/lib/deriveInstallPath.ts): `path.join(execPath, '..')` on Windows,
`path.join(execPath, '..', '..')` elsewhere. -/
def deriveInstallPath (isWindows : Bool) (execPath : List String) : List String :=
  if isWindows then pathJoin execPath [".."] else pathJoin execPath ["..", ".."]

/-- Parent directory of a path, in the spec's words ("the root is the
executable's parent"): the path with its last segment removed. Used to compare
the source's `path.join(execPath, '..')` computation against the spec. -/
def parentDir (p : List String) : List String := p.dropLast

/-- Path whose segments are ordinary names: no empty, `"."` or `".."`
segments. -/
def NormalSegs (p : List String) : Prop := ∀ s ∈ p, s ≠ "" ∧ s ≠ "." ∧ s ≠ ".."

/-- Worker argument values as seen by the dispatcher: for callback detection
only `typeof lastArg === 'function'` matters, so a value is either an opaque
non-function value of `V` or an opaque function value (tagged to tell
function values apart). -/
inductive Arg (V : Type) where
  | value : V → Arg V
  | func : Nat → Arg V
deriving DecidableEq, Repr

/-- Truth value of `typeof a === 'function'`. -/
def Arg.isFunction {V : Type} : Arg V → Bool
  | .func _ => true
  | .value _ => false

/-- Module export of a loaded worker file: either a function of the argument
list (which may return a value or throw) or a non-function export value. -/
inductive WorkerModule (V : Type) where
  | fn : (List (Arg V) → Except ErrMsg V) → WorkerModule V
  | value : V → WorkerModule V

/-- Options record passed to `function-exec-sync` and to `spawnOptions`.
`execPath` is nullable in the source (`cachedExecPath: string | null`);
`callbacks` is the raw possibly-undefined option value; `moduleType` and
`interop` are set only by the async caller (src/bind.ts). -/
structure ExecOptions where
  execPath : Option (List String)
  sleep : Nat
  callbacks : Option Bool
  env : EnvMap
  moduleType : Option String
  interop : Option String
deriving DecidableEq, Repr

/-- The ambient process and the external collaborators, all opaque to the
dispatcher: `semverSatisfies` is `semver.satisfies`, `locate` is
node-exec-path's `satisfiesSemverSync` (the Version Locator), `requireModule`
is CommonJS `_require`, `loadModuleSync` is module-compat's loader keyed on
`(workerPath, moduleType, interop)`, `spawnOptionsF` is node-version-utils'
`spawnOptions` (the Spawn Environment Builder) and `functionExec` is
`function-exec-sync` (the Remote Executor). -/
structure World (V : Type) where
  processVersion : String
  processExecPath : List String
  processEnv : EnvMap
  pathKeyName : String
  isWindows : Bool
  semverSatisfies : String → String → Bool
  locate : String → Option EnvMap → Option (List String)
  requireModule : String → WorkerModule V
  loadModuleSync : String → String → String → WorkerModule V
  spawnOptionsF : Option (List String) → ExecOptions → ExecOptions
  functionExec : ExecOptions → String → List (Arg V) → Except ErrMsg V

/-- Result of `resolveVersion`: the located executable path and the derived
install path. -/
structure ResolvedVersion where
  execPath : List String
  installPath : List String
deriving DecidableEq, Repr

/-- Message of the VersionNotFound error thrown by `resolveVersion`. -/
def vnfMessage (version : String) : ErrMsg :=
  "node-version-call-local: No Node matching \"" ++ version ++ "\" found in PATH"

/-- Message of the error thrown when a caller-supplied `options.env` lacks the
executable-search-path variable. -/
def mreMessage (pathKeyName : String) : ErrMsg :=
  "node-version-call-local: options.env missing required " ++ pathKeyName

/-- Embedding of `resolveVersion` (src/bind.ts second part, `lib/resolveVersion.ts`):
call the Version Locator with the constraint and the caller-supplied env (the
source passes `{ env: options.env }` exactly when `options.env` is defined);
throw the VersionNotFound error when it returns no path, otherwise derive the
install path with `path.join(execPath, '..')` on Windows and
`path.join(execPath, '..', '..')` elsewhere. -/
def resolveVersion {V : Type} (w : World V) (version : String) (optsEnv : Option EnvMap) :
    Except ErrMsg ResolvedVersion :=
  match w.locate version optsEnv with
  | none => Except.error (vnfMessage version)
  | some execPath =>
      Except.ok { execPath := execPath,
                  installPath :=
                    if w.isWindows then pathJoin execPath [".."]
                    else pathJoin execPath ["..", ".."] }

/-- Options record accepted by `call`/`callSync`/`bind`/`bindSync`
(src/types.ts); `moduleType`/`interop` are read only by src/bind.ts. Every
field is optional in the source. -/
structure CallOptions where
  callbacks : Option Bool := none
  spawnOptions : Option Bool := none
  env : Option EnvMap := none
  moduleType : Option String := none
  interop : Option String := none

/-- Mutable closure state of one binding: `initialized`, `currentSatisfies`,
`cachedExecPath`, `cachedInstallPath` in the source. `currentSatisfies` is an
uninitialized `let` in the source, read only after the initialization block
ran; it is modelled with initial value `false`. -/
structure BindingState where
  initialized : Bool := false
  currentSatisfies : Bool := false
  cachedExecPath : Option (List String) := none
  cachedInstallPath : Option (List String) := none
deriving DecidableEq, Repr

/-- Closure state of a freshly created binding. -/
def initialState : BindingState := {}

/-- The check `version === process.version || semver.satisfies(process.version, version)`. -/
def satisfiesCheck {V : Type} (w : World V) (version : String) : Bool :=
  version == w.processVersion || w.semverSatisfies w.processVersion version

/-- Outcome of the lazy initialization block shared by `boundAsyncCaller`
(src/bind.ts lines 44-53) and `boundSyncCaller` (src/index.ts lines 169-178):
the updated closure state, how many Version Locator lookups ran, and the
error thrown by `resolveVersion`, if any. -/
structure InitResult where
  state : BindingState
  locatorCalls : Nat
  thrown : Option ErrMsg

/-- Embedding of the initialization block: on an uninitialized state compute
`currentSatisfies`; when it is false call `resolveVersion` and cache the
resolved paths; set `initialized` only when no error was thrown (a throw from
`resolveVersion` aborts the block before `initialized = true` runs). -/
def initBinding {V : Type} (w : World V) (version : String) (optsEnv : Option EnvMap)
    (st : BindingState) : InitResult :=
  if st.initialized then { state := st, locatorCalls := 0, thrown := none }
  else
    let cs := satisfiesCheck w version
    if cs then
      { state := { st with currentSatisfies := cs, initialized := true },
        locatorCalls := 0, thrown := none }
    else
      match resolveVersion w version optsEnv with
      | Except.error e =>
          { state := { st with currentSatisfies := cs }, locatorCalls := 1, thrown := some e }
      | Except.ok r =>
          { state := { initialized := true, currentSatisfies := cs,
                       cachedExecPath := some r.execPath,
                       cachedInstallPath := some r.installPath },
            locatorCalls := 1, thrown := none }

/-- One call to the Remote Executor (`function-exec-sync`): the options, the
worker path and the arguments passed to it. -/
structure SpawnCall (V : Type) where
  options : ExecOptions
  workerPath : String
  args : List (Arg V)

/-- Result of the underlying `execute` operation: result or thrown error, the
closure state afterwards, and the instrumentation counters. -/
structure ExecResult (V : Type) where
  result : Except ErrMsg V
  state : BindingState
  locatorCalls : Nat
  spawns : List (SpawnCall V)

/-- Truth value of `opts.env && !opts.env[PATH_KEY]`. -/
def missingPathKey (optsEnv : Option EnvMap) (key : String) : Bool :=
  match optsEnv with
  | some e => jsFalsyStr (envLookup e key)
  | none => false

/-- Binding configuration captured by `bind` (src/bind.ts) at creation time:
the closed-over constants of `boundAsyncCaller`. -/
structure AsyncBinding where
  version : String
  workerPath : String
  optsEnv : Option EnvMap
  callbacks : Option Bool
  useSpawnOptions : Bool
  env : EnvMap
  moduleType : String
  interop : String

/-- Embedding of `bind` (src/bind.ts): capture the options; `callbacks` is the
raw option value, `useSpawnOptions` is `opts.spawnOptions !== false`, `env` is
`opts.env || process.env` read at bind time, `moduleType`/`interop` default to
`'auto'`/`'default'`. No resolution work happens here. -/
def bind (version workerPath : String) (options : Option CallOptions) (processEnv : EnvMap) :
    AsyncBinding :=
  let opts := options.getD {}
  { version := version
    workerPath := workerPath
    optsEnv := opts.env
    callbacks := opts.callbacks
    useSpawnOptions := !(opts.spawnOptions == some false)
    env := opts.env.getD processEnv
    moduleType := jsOrDefault opts.moduleType "auto"
    interop := jsOrDefault opts.interop "default" }

/-- Exec options built by `boundAsyncCaller` for a local callback-style worker:
`{ execPath: process.execPath, sleep: SLEEP_MS, callbacks, env, moduleType, interop }`. -/
def AsyncBinding.localExecOptions {V : Type} (b : AsyncBinding) (w : World V) : ExecOptions :=
  { execPath := some w.processExecPath, sleep := 60, callbacks := b.callbacks,
    env := b.env, moduleType := some b.moduleType, interop := some b.interop }

/-- Exec options built by `boundAsyncCaller` for remote execution before any
`spawnOptions` merge: `{ execPath: cachedExecPath, sleep: SLEEP_MS, callbacks, env,
moduleType, interop }`. -/
def AsyncBinding.remoteBaseOptions (b : AsyncBinding) (st : BindingState) : ExecOptions :=
  { execPath := st.cachedExecPath, sleep := 60, callbacks := b.callbacks,
    env := b.env, moduleType := some b.moduleType, interop := some b.interop }

/-- Embedding of the `execute` closure of `boundAsyncCaller` (src/bind.ts
lines 43-82): lazy initialization, then local execution (callback-style
workers via the Remote Executor on the current process's executable after the
PATH-variable check, other workers via `loadModuleSync`, applying a function
export and returning a non-function export as is), otherwise remote execution
via the Remote Executor, with `spawnOptions` applied unless disabled. -/
def executeAsync {V : Type} (b : AsyncBinding) (w : World V) (st : BindingState)
    (args : List (Arg V)) : ExecResult V :=
  let ini := initBinding w b.version b.optsEnv st
  match ini.thrown with
  | some e =>
      { result := Except.error e, state := ini.state,
        locatorCalls := ini.locatorCalls, spawns := [] }
  | none =>
      if ini.state.currentSatisfies then
        if b.callbacks == some true then
          if missingPathKey b.optsEnv w.pathKeyName then
            { result := Except.error (mreMessage w.pathKeyName), state := ini.state,
              locatorCalls := ini.locatorCalls, spawns := [] }
          else
            { result := w.functionExec (b.localExecOptions w) b.workerPath args,
              state := ini.state, locatorCalls := ini.locatorCalls,
              spawns := [{ options := b.localExecOptions w, workerPath := b.workerPath,
                           args := args }] }
        else
          match w.loadModuleSync b.workerPath b.moduleType b.interop with
          | WorkerModule.fn f =>
              { result := f args, state := ini.state,
                locatorCalls := ini.locatorCalls, spawns := [] }
          | WorkerModule.value v =>
              { result := Except.ok v, state := ini.state,
                locatorCalls := ini.locatorCalls, spawns := [] }
      else
        let eo :=
          if b.useSpawnOptions then
            w.spawnOptionsF ini.state.cachedInstallPath (b.remoteBaseOptions ini.state)
          else b.remoteBaseOptions ini.state
        { result := w.functionExec eo b.workerPath args, state := ini.state,
          locatorCalls := ini.locatorCalls,
          spawns := [{ options := eo, workerPath := b.workerPath, args := args }] }

/-- Observable outcome of one call through `boundAsyncCaller`:
`callbackDone events` means the caller returned `undefined` after invoking the
popped callback once per recorded event, in order; `promise r` means the
caller returned a promise settling as `r`. -/
inductive CallOutcome (V : Type) where
  | callbackDone : List (Option ErrMsg × Option V) → CallOutcome V
  | promise : Except ErrMsg V → CallOutcome V

/-- Result of one invocation through `boundAsyncCaller`, with the closure
state afterwards and the instrumentation counters. -/
structure InvokeResult (V : Type) where
  outcome : CallOutcome V
  state : BindingState
  locatorCalls : Nat
  spawns : List (SpawnCall V)

/-- Arguments of the single callback invocation performed for an `execute`
outcome: `callback(null, result)` on success, `callback(err)` on failure. -/
def callbackEvent {V : Type} : Except ErrMsg V → Option ErrMsg × Option V
  | Except.ok r => (none, some r)
  | Except.error e => (some e, none)

/-- Truth value of `typeof args[args.length - 1] === 'function'`. -/
def hasTrailingCallback {V : Type} (args : List (Arg V)) : Bool :=
  match args.getLast? with
  | some a => a.isFunction
  | none => false

/-- Embedding of `boundAsyncCaller` (src/bind.ts lines 37-105): when the last
argument is a function, pop it, run `execute` on the remaining arguments and
deliver its outcome through the callback inside try/catch, returning
`undefined`; otherwise return a promise settling with the `execute` outcome. -/
def boundAsyncCaller {V : Type} (b : AsyncBinding) (w : World V) (st : BindingState)
    (args : List (Arg V)) : InvokeResult V :=
  if hasTrailingCallback args then
    let inner := executeAsync b w st args.dropLast
    { outcome := CallOutcome.callbackDone [callbackEvent inner.result],
      state := inner.state, locatorCalls := inner.locatorCalls, spawns := inner.spawns }
  else
    let inner := executeAsync b w st args
    { outcome := CallOutcome.promise inner.result,
      state := inner.state, locatorCalls := inner.locatorCalls, spawns := inner.spawns }

/-- Binding configuration captured by `bindSync` (src/index.ts): the
closed-over constants of `boundSyncCaller`. No `moduleType`/`interop`. -/
structure SyncBinding where
  version : String
  workerPath : String
  optsEnv : Option EnvMap
  callbacks : Option Bool
  useSpawnOptions : Bool
  env : EnvMap

/-- Embedding of `bindSync` (src/index.ts lines 157-167): capture the options;
no resolution work happens here. -/
def bindSync (version workerPath : String) (options : Option CallOptions) (processEnv : EnvMap) :
    SyncBinding :=
  let opts := options.getD {}
  { version := version
    workerPath := workerPath
    optsEnv := opts.env
    callbacks := opts.callbacks
    useSpawnOptions := !(opts.spawnOptions == some false)
    env := opts.env.getD processEnv }

/-- Exec options built by `boundSyncCaller` for a local callback-style worker. -/
def SyncBinding.localExecOptions {V : Type} (s : SyncBinding) (w : World V) : ExecOptions :=
  { execPath := some w.processExecPath, sleep := 60, callbacks := s.callbacks,
    env := s.env, moduleType := none, interop := none }

/-- Exec options built by `boundSyncCaller` for remote execution before any
`spawnOptions` merge. -/
def SyncBinding.remoteBaseOptions (s : SyncBinding) (st : BindingState) : ExecOptions :=
  { execPath := st.cachedExecPath, sleep := 60, callbacks := s.callbacks,
    env := s.env, moduleType := none, interop := none }

/-- Embedding of `boundSyncCaller` (src/index.ts lines 168-207): the same
lazy initialization and local/remote dispatch, with `_require` as the local
loader, no callback detection on the argument list, and the result returned
(or the error raised) directly. -/
def boundSyncCaller {V : Type} (s : SyncBinding) (w : World V) (st : BindingState)
    (args : List (Arg V)) : ExecResult V :=
  let ini := initBinding w s.version s.optsEnv st
  match ini.thrown with
  | some e =>
      { result := Except.error e, state := ini.state,
        locatorCalls := ini.locatorCalls, spawns := [] }
  | none =>
      if ini.state.currentSatisfies then
        if s.callbacks == some true then
          if missingPathKey s.optsEnv w.pathKeyName then
            { result := Except.error (mreMessage w.pathKeyName), state := ini.state,
              locatorCalls := ini.locatorCalls, spawns := [] }
          else
            { result := w.functionExec (s.localExecOptions w) s.workerPath args,
              state := ini.state, locatorCalls := ini.locatorCalls,
              spawns := [{ options := s.localExecOptions w, workerPath := s.workerPath,
                           args := args }] }
        else
          match w.requireModule s.workerPath with
          | WorkerModule.fn f =>
              { result := f args, state := ini.state,
                locatorCalls := ini.locatorCalls, spawns := [] }
          | WorkerModule.value v =>
              { result := Except.ok v, state := ini.state,
                locatorCalls := ini.locatorCalls, spawns := [] }
      else
        let eo :=
          if s.useSpawnOptions then
            w.spawnOptionsF ini.state.cachedInstallPath (s.remoteBaseOptions ini.state)
          else s.remoteBaseOptions ini.state
        { result := w.functionExec eo s.workerPath args, state := ini.state,
          locatorCalls := ini.locatorCalls,
          spawns := [{ options := eo, workerPath := s.workerPath, args := args }] }

/-- Embedding of `call` (src/call.ts): `bind(version, workerPath, options)(...args)`
on a fresh binding. -/
def call {V : Type} (version workerPath : String) (options : Option CallOptions)
    (w : World V) (args : List (Arg V)) : InvokeResult V :=
  boundAsyncCaller (bind version workerPath options w.processEnv) w initialState args

/-- Embedding of `callSync` (src/callSync.ts):
`bindSync(version, workerPath, options)(...args)` on a fresh binding. -/
def callSync {V : Type} (version workerPath : String) (options : Option CallOptions)
    (w : World V) (args : List (Arg V)) : ExecResult V :=
  boundSyncCaller (bindSync version workerPath options w.processEnv) w initialState args

/-! Concrete fixtures used to evaluate the embedding on closed inputs. -/

/-- Concrete ambient environment for tests. -/
def envTest : EnvMap := [("PATH", "/usr/bin")]

/-- Concrete world: a Node v18 process on a non-Windows platform. The locator
finds an installation only for the constraint `">=20"`; `semver.satisfies` is
stubbed to accept exactly the range `">=18"`; the Remote Executor stub returns
`100 +` the number of arguments; worker modules export a function returning
the number of arguments. -/
def wTest : World Nat where
  processVersion := "v18.0.0"
  processExecPath := ["usr", "local", "bin", "node"]
  processEnv := envTest
  pathKeyName := "PATH"
  isWindows := false
  semverSatisfies := fun _ r => r == ">=18"
  locate := fun v _ => if v == ">=20" then some ["opt", "node20", "bin", "node"] else none
  requireModule := fun _ => WorkerModule.fn (fun as => Except.ok as.length)
  loadModuleSync := fun _ _ _ => WorkerModule.fn (fun as => Except.ok as.length)
  spawnOptionsF := fun _ o => o
  functionExec := fun _ _ as => Except.ok (100 + as.length)

/-- Variant of `wTest` whose worker module exports a non-function value. -/
def wValueTest : World Nat :=
  { wTest with
    loadModuleSync := fun _ _ _ => WorkerModule.value 42
    requireModule := fun _ => WorkerModule.value 42 }

/-- Already-initialized binding state with a Local resolution. -/
def stLocal : BindingState :=
  { initialized := true, currentSatisfies := true,
    cachedExecPath := none, cachedInstallPath := none }

/-- Binding on the satisfied constraint with default options. -/
def bPlain : AsyncBinding := bind "v18.0.0" "/w.js" none wTest.processEnv

/-- Sync binding on the satisfied constraint with default options. -/
def sPlain : SyncBinding := bindSync "v18.0.0" "/w.js" none wTest.processEnv

/-- Binding on the satisfied constraint with `callbacks: true`. -/
def bCb : AsyncBinding :=
  bind "v18.0.0" "/w.js" (some { callbacks := some true }) wTest.processEnv

/-- Binding with `callbacks: true` and an env override whose `PATH` is the
empty string: the variable is present but JavaScript-falsy. -/
def bCbEmptyPath : AsyncBinding :=
  bind "v18.0.0" "/w.js" (some { callbacks := some true, env := some [("PATH", "")] })
    wTest.processEnv

/-- Binding with `callbacks: true` and an env override that lacks `PATH`. -/
def bCbNoPath : AsyncBinding :=
  bind "v18.0.0" "/w.js" (some { callbacks := some true, env := some [("HOME", "/root")] })
    wTest.processEnv

/-- Binding with `callbacks: true` and an env override carrying a non-empty
`PATH`. -/
def bCbGoodEnv : AsyncBinding :=
  bind "v18.0.0" "/w.js" (some { callbacks := some true, env := some envTest })
    wTest.processEnv

/-- Binding on a constraint that neither the process nor the locator
satisfies. -/
def bMissing : AsyncBinding := bind ">=99" "/w.js" none wTest.processEnv

/-- Sync binding on a constraint that neither the process nor the locator
satisfies. -/
def sMissing : SyncBinding := bindSync ">=99" "/w.js" none wTest.processEnv

/-! Helper lemmas about the initialization block and the two callers. -/

theorem initBinding_of_initialized {V : Type} (w : World V) (version : String)
    (optsEnv : Option EnvMap) (st : BindingState) (h : st.initialized = true) :
    initBinding w version optsEnv st = { state := st, locatorCalls := 0, thrown := none } := by
  simp [initBinding, h]

theorem initBinding_of_satisfies {V : Type} (w : World V) (version : String)
    (optsEnv : Option EnvMap) (st : BindingState) (h : st.initialized = false)
    (hs : satisfiesCheck w version = true) :
    initBinding w version optsEnv st =
      { state := { st with currentSatisfies := true, initialized := true },
        locatorCalls := 0, thrown := none } := by
  simp [initBinding, h, hs]

theorem initBinding_of_locate_none {V : Type} (w : World V) (version : String)
    (optsEnv : Option EnvMap) (st : BindingState) (h : st.initialized = false)
    (hs : satisfiesCheck w version = false) (hl : w.locate version optsEnv = none) :
    initBinding w version optsEnv st =
      { state := { st with currentSatisfies := false },
        locatorCalls := 1, thrown := some (vnfMessage version) } := by
  simp [initBinding, h, hs, resolveVersion, hl]

theorem executeAsync_state_eq {V : Type} (b : AsyncBinding) (w : World V) (st : BindingState)
    (args : List (Arg V)) :
    (executeAsync b w st args).state = (initBinding w b.version b.optsEnv st).state ∧
    (executeAsync b w st args).locatorCalls =
      (initBinding w b.version b.optsEnv st).locatorCalls := by
  refine ⟨?_, ?_⟩ <;>
    · unfold executeAsync
      dsimp only
      repeat' split
      all_goals rfl

theorem boundSyncCaller_state_eq {V : Type} (s : SyncBinding) (w : World V) (st : BindingState)
    (args : List (Arg V)) :
    (boundSyncCaller s w st args).state = (initBinding w s.version s.optsEnv st).state ∧
    (boundSyncCaller s w st args).locatorCalls =
      (initBinding w s.version s.optsEnv st).locatorCalls := by
  refine ⟨?_, ?_⟩ <;>
    · unfold boundSyncCaller
      dsimp only
      repeat' split
      all_goals rfl

theorem boundAsyncCaller_state_eq {V : Type} (b : AsyncBinding) (w : World V) (st : BindingState)
    (args : List (Arg V)) :
    (boundAsyncCaller b w st args).state = (initBinding w b.version b.optsEnv st).state ∧
    (boundAsyncCaller b w st args).locatorCalls =
      (initBinding w b.version b.optsEnv st).locatorCalls := by
  unfold boundAsyncCaller
  split <;> simp [executeAsync_state_eq]

theorem foldl_normStep_of_normal (p : List String) :
    ∀ acc : List String, NormalSegs p → p.foldl normStep acc = acc ++ p := by
  induction p with
  | nil => intro acc _; simp
  | cons a t ih =>
    intro acc hp
    have ha : a ≠ "" ∧ a ≠ "." ∧ a ≠ ".." := hp a (List.mem_cons_self a t)
    have ht : NormalSegs t := fun s hs => hp s (List.mem_cons_of_mem a hs)
    simp only [List.foldl_cons]
    rw [ih (normStep acc a) ht]
    simp [normStep, ha.1, ha.2.1, ha.2.2]

theorem pathJoin_parent_of_normal (p : List String) (hp : NormalSegs p) :
    pathJoin p [".."] = p.dropLast := by
  unfold pathJoin
  rw [List.foldl_append, foldl_normStep_of_normal p [] hp]
  simp [normStep]

theorem pathJoin_grandparent_of_normal (p : List String) (hp : NormalSegs p) :
    pathJoin p ["..", ".."] = p.dropLast.dropLast := by
  unfold pathJoin
  rw [List.foldl_append, foldl_normStep_of_normal p [] hp]
  simp [normStep]

/-- C5: whenever the Version Locator returns no path for a constraint,
`resolveVersion` fails with an error whose message contains the original
constraint string verbatim, and an invocation through a bound caller whose
binding is not yet resolved fails with exactly that VersionNotFound error. -/
theorem version_not_found_embeds_constraint {V : Type} (w : World V) (version : String)
    (optsEnv : Option EnvMap) (hloc : w.locate version optsEnv = none) :
    (∃ s1 s2, resolveVersion w version optsEnv = Except.error (s1 ++ version ++ s2)) ∧
    (∀ (b : AsyncBinding) (st : BindingState) (args : List (Arg V)),
      b.version = version → b.optsEnv = optsEnv → st.initialized = false →
      satisfiesCheck w version = false →
      (executeAsync b w st args).result = Except.error (vnfMessage version)) := by
  constructor
  · exact ⟨"node-version-call-local: No Node matching \"", "\" found in PATH",
      by simp [resolveVersion, hloc, vnfMessage]⟩
  · intro b st args hv he hi hs
    unfold executeAsync
    rw [hv, he, initBinding_of_locate_none w version optsEnv st hi hs hloc]

/-- C5 witness: the fixture world locates nothing for the constraint `">=99"`,
and both `resolveVersion` and a fresh bound invocation fail with the
constraint-embedding message. -/
theorem version_not_found_embeds_constraint_witness :
    wTest.locate ">=99" none = none ∧
    (∃ s1 s2, resolveVersion wTest ">=99" none = Except.error (s1 ++ ">=99" ++ s2)) ∧
    (executeAsync bMissing wTest initialState [Arg.value 1]).result =
      Except.error (vnfMessage ">=99") := by
  refine ⟨rfl, (version_not_found_embeds_constraint wTest ">=99" none rfl).1, ?_⟩
  exact (version_not_found_embeds_constraint wTest ">=99" none rfl).2 bMissing initialState
    [Arg.value 1] rfl rfl rfl rfl

/-- C7: for every executable path returned by the Version Locator (with
ordinary segments), the derived install root is the executable's parent
directory on Windows and its grandparent directory elsewhere, both for
`deriveInstallPath` and for the inlined computation in `resolveVersion`. -/
theorem install_root_parent_or_grandparent {V : Type} (w : World V) (version : String)
    (optsEnv : Option EnvMap) (p : List String) (hp : NormalSegs p)
    (hloc : w.locate version optsEnv = some p) :
    deriveInstallPath true p = parentDir p ∧
    deriveInstallPath false p = parentDir (parentDir p) ∧
    resolveVersion w version optsEnv =
      Except.ok { execPath := p,
                  installPath := if w.isWindows then parentDir p
                                 else parentDir (parentDir p) } := by
  have h1 := pathJoin_parent_of_normal p hp
  have h2 := pathJoin_grandparent_of_normal p hp
  refine ⟨by simp [deriveInstallPath, h1, parentDir], by simp [deriveInstallPath, h2, parentDir], ?_⟩
  simp only [resolveVersion, hloc]
  cases hw : w.isWindows <;> simp [hw, h1, h2, parentDir]

/-- C7 witness: the fixture locator returns `/opt/node20/bin/node` for the
constraint `">=20"`; its install root is `/opt/node20/bin` on Windows and
`/opt/node20` elsewhere. -/
theorem install_root_parent_or_grandparent_witness :
    wTest.locate ">=20" none = some ["opt", "node20", "bin", "node"] ∧
    NormalSegs ["opt", "node20", "bin", "node"] ∧
    deriveInstallPath true ["opt", "node20", "bin", "node"] = ["opt", "node20", "bin"] ∧
    deriveInstallPath false ["opt", "node20", "bin", "node"] = ["opt", "node20"] ∧
    resolveVersion wTest ">=20" none =
      Except.ok { execPath := ["opt", "node20", "bin", "node"],
                  installPath := ["opt", "node20"] } := by
  have hn : NormalSegs ["opt", "node20", "bin", "node"] := by
    intro s hs
    fin_cases hs <;> refine ⟨by decide, by decide, by decide⟩
  have h := install_root_parent_or_grandparent wTest ">=20" none
    ["opt", "node20", "bin", "node"] hn rfl
  exact ⟨rfl, hn, h.1, h.2.1, h.2.2⟩

/-- C1: version resolution is lazy and frozen. Binding creation leaves the
resolution state uninitialized (nothing is resolved at bind time), and once a
binding's state is initialized, every subsequent invocation through the bound
async caller or the bound sync caller — under any later world, i.e. even if
the process environment, version or locator behaviour changed — performs zero
Version Locator calls and leaves the memoized resolution unchanged. -/
theorem resolution_lazy_then_frozen {V : Type} (b : AsyncBinding) (s : SyncBinding)
    (w w' : World V) (st : BindingState) (args args' : List (Arg V))
    (h : st.initialized = true) :
    initialState.initialized = false ∧
    (boundAsyncCaller b w st args).state = st ∧
    (boundAsyncCaller b w st args).locatorCalls = 0 ∧
    (boundSyncCaller s w' st args').state = st ∧
    (boundSyncCaller s w' st args').locatorCalls = 0 := by
  have hb := boundAsyncCaller_state_eq b w st args
  have hsy := boundSyncCaller_state_eq s w' st args'
  rw [initBinding_of_initialized w b.version b.optsEnv st h] at hb
  rw [initBinding_of_initialized w' s.version s.optsEnv st h] at hsy
  exact ⟨rfl, hb.1, hb.2, hsy.1, hsy.2⟩

/-- C1 witness: an initialized Local binding state is reused unchanged with no
locator call by both callers of the fixture bindings. -/
theorem resolution_lazy_then_frozen_witness :
    stLocal.initialized = true ∧
    (boundAsyncCaller bPlain wTest stLocal [Arg.value 1]).state = stLocal ∧
    (boundAsyncCaller bPlain wTest stLocal [Arg.value 1]).locatorCalls = 0 ∧
    (boundSyncCaller sPlain wTest stLocal [Arg.value 2]).state = stLocal ∧
    (boundSyncCaller sPlain wTest stLocal [Arg.value 2]).locatorCalls = 0 := by
  have h := resolution_lazy_then_frozen bPlain sPlain wTest wTest stLocal
    [Arg.value 1] [Arg.value 2] rfl
  exact ⟨rfl, h.2.1, h.2.2.1, h.2.2.2.1, h.2.2.2.2⟩

/-- C2: for every invocation through the bound async caller whose last
positional argument is a function, that callback is popped off the argument
list and invoked exactly once — as `callback(null, result)` when the
underlying `execute` succeeds and as `callback(err)` when it fails — and the
caller returns `undefined` (the `callbackDone` outcome with a singleton event
list) instead of raising, for every worker outcome. -/
theorem callback_invoked_exactly_once {V : Type} (b : AsyncBinding) (w : World V)
    (st : BindingState) (args : List (Arg V)) (k : Nat)
    (h : args.getLast? = some (Arg.func k)) :
    ((boundAsyncCaller b w st args).outcome =
      CallOutcome.callbackDone [callbackEvent (executeAsync b w st args.dropLast).result]) ∧
    (∀ r : V, (executeAsync b w st args.dropLast).result = Except.ok r →
      callbackEvent (executeAsync b w st args.dropLast).result = (none, some r)) ∧
    (∀ e : ErrMsg, (executeAsync b w st args.dropLast).result = Except.error e →
      callbackEvent (executeAsync b w st args.dropLast).result = (some e, none)) := by
  have hc : hasTrailingCallback args = true := by
    simp [hasTrailingCallback, h, Arg.isFunction]
  refine ⟨?_, ?_, ?_⟩
  · unfold boundAsyncCaller
    simp [hc]
  · intro r hr; rw [hr]; rfl
  · intro e he; rw [he]; rfl

/-- C2 witness: calling the fixture binding with a trailing function value
invokes the callback once with `(null, result)`. -/
theorem callback_invoked_exactly_once_witness :
    ([Arg.value 1, Arg.func 0] : List (Arg Nat)).getLast? = some (Arg.func 0) ∧
    (boundAsyncCaller bPlain wTest initialState [Arg.value 1, Arg.func 0]).outcome =
      CallOutcome.callbackDone
        [callbackEvent (executeAsync bPlain wTest initialState
          ([Arg.value 1, Arg.func 0] : List (Arg Nat)).dropLast).result] :=
  ⟨rfl, (callback_invoked_exactly_once bPlain wTest initialState
    [Arg.value 1, Arg.func 0] 0 rfl).1⟩

/-- C3 counterexample: the claim that the Remote Executor is never invoked for
a satisfied constraint fails under `callbacks: true`. The fixture constraint
`"v18.0.0"` equals the process version (the binding resolves Local,
`currentSatisfies = true`), yet the invocation performs one
`function-exec-sync` call. -/
theorem satisfied_callbacks_spawn_counterexample :
    satisfiesCheck wTest bCb.version = true ∧
    (boundAsyncCaller bCb wTest initialState [Arg.value 1]).state.currentSatisfies = true ∧
    (boundAsyncCaller bCb wTest initialState [Arg.value 1]).spawns.length = 1 :=
  ⟨rfl, rfl, rfl⟩

/-- C3 (amended): for every constraint satisfied by the current process's
version, an invocation whose configuration is not callback-style
(`callbacks` is not `true`) resolves Local and performs zero subprocess
spawns — the Remote Executor is never invoked — and the Version Locator is
not called; with `callbacks: true` the code instead routes the local call
through the Remote Executor. -/
theorem satisfied_noncallback_no_spawn {V : Type} (b : AsyncBinding) (w : World V)
    (st : BindingState) (args : List (Arg V))
    (hini : st.initialized = false)
    (hsat : satisfiesCheck w b.version = true)
    (hcb : b.callbacks ≠ some true) :
    (boundAsyncCaller b w st args).spawns = [] ∧
    (boundAsyncCaller b w st args).locatorCalls = 0 ∧
    (boundAsyncCaller b w st args).state.currentSatisfies = true := by
  have hcb' : (b.callbacks == some true) = false := by simp [hcb]
  have key : ∀ as : List (Arg V), (executeAsync b w st as).spawns = [] ∧
      (executeAsync b w st as).locatorCalls = 0 ∧
      (executeAsync b w st as).state.currentSatisfies = true := by
    intro as
    unfold executeAsync
    rw [initBinding_of_satisfies w b.version b.optsEnv st hini hsat]
    cases hm : w.loadModuleSync b.workerPath b.moduleType b.interop <;> simp [hcb', hm]
  unfold boundAsyncCaller
  split <;> exact key _

/-- C3 (amended) witness: the default-options fixture binding on the satisfied
constraint spawns nothing and never calls the locator. -/
theorem satisfied_noncallback_no_spawn_witness :
    initialState.initialized = false ∧
    satisfiesCheck wTest bPlain.version = true ∧
    bPlain.callbacks ≠ some true ∧
    (boundAsyncCaller bPlain wTest initialState [Arg.value 1]).spawns = [] ∧
    (boundAsyncCaller bPlain wTest initialState [Arg.value 1]).locatorCalls = 0 := by
  have h := satisfied_noncallback_no_spawn bPlain wTest initialState [Arg.value 1]
    rfl rfl (by decide)
  exact ⟨rfl, rfl, by decide, h.1, h.2.1⟩

/-- C4: the synchronous surface (`callSync` and the caller returned by
`bindSync`) never applies trailing-function callback detection: every
Remote Executor call receives the full argument list unchanged (a trailing
function value included), a local function worker is applied to the full
argument list, and the result (or error) is delivered directly as the
`ExecResult`, with no callback and no promise. -/
theorem sync_surface_no_callback_detection {V : Type} :
    (∀ (s : SyncBinding) (w : World V) (st : BindingState) (args : List (Arg V)),
      ∀ sp ∈ (boundSyncCaller s w st args).spawns, sp.args = args) ∧
    (∀ (version workerPath : String) (o : Option CallOptions) (w : World V)
        (args : List (Arg V)),
      ∀ sp ∈ (callSync version workerPath o w args).spawns, sp.args = args) ∧
    (∀ (s : SyncBinding) (w : World V) (st : BindingState) (args : List (Arg V))
        (f : List (Arg V) → Except ErrMsg V),
      st.initialized = true → st.currentSatisfies = true → s.callbacks ≠ some true →
      w.requireModule s.workerPath = WorkerModule.fn f →
      (boundSyncCaller s w st args).result = f args) := by
  have part1 : ∀ (s : SyncBinding) (w : World V) (st : BindingState) (args : List (Arg V)),
      ∀ sp ∈ (boundSyncCaller s w st args).spawns, sp.args = args := by
    intro s w st args sp hsp
    unfold boundSyncCaller at hsp
    dsimp only at hsp
    repeat' split at hsp
    all_goals simp_all
  refine ⟨part1, ?_, ?_⟩
  · intro version workerPath o w args
    unfold callSync
    exact part1 _ _ _ _
  · intro s w st args f h1 h2 h3 hm
    have h3' : (s.callbacks == some true) = false := by simp [h3]
    unfold boundSyncCaller
    rw [initBinding_of_initialized w s.version s.optsEnv st h1]
    simp [h2, h3', hm]

/-- C4 witness: the sync caller passes a trailing function value through to
the worker — the fixture worker counts its arguments and sees both, the
trailing function included. -/
theorem sync_surface_no_callback_detection_witness :
    stLocal.initialized = true ∧ stLocal.currentSatisfies = true ∧
    (boundSyncCaller sPlain wTest stLocal [Arg.value 1, Arg.func 0]).result =
      Except.ok 2 := by
  have h := (sync_surface_no_callback_detection (V := Nat)).2.2 sPlain wTest stLocal
    [Arg.value 1, Arg.func 0] (fun as => Except.ok as.length) rfl rfl (by decide) rfl
  exact ⟨rfl, rfl, h⟩

/-- C6 counterexample: the source checks JavaScript falsiness of
`opts.env[PATH_KEY]`, not key absence. With an env override whose `PATH` is
present but empty (`""` is falsy), a Local callback-style invocation fails
with the MissingRequiredEnvironment error although the variable is present —
against the claim that no such error is raised when the variable is
present. -/
theorem missing_env_error_despite_present_key_counterexample :
    envLookup [("PATH", "")] "PATH" = some "" ∧
    bCbEmptyPath.optsEnv = some [("PATH", "")] ∧
    satisfiesCheck wTest bCbEmptyPath.version = true ∧
    (executeAsync bCbEmptyPath wTest initialState [Arg.value 1]).result =
      Except.error (mreMessage "PATH") ∧
    (executeAsync bCbEmptyPath wTest initialState [Arg.value 1]).spawns = [] :=
  ⟨rfl, rfl, rfl, rfl, rfl⟩

/-- C6 (amended): when resolution is Local and the worker is callback-style,
if the caller supplied an environment override in which the platform's
executable-search-path variable is absent or set to the empty string, the
invocation fails with the MissingRequiredEnvironment error with zero Remote
Executor calls (before any process is spawned); when the variable is present
with a non-empty value, or when no override was supplied, the invocation
proceeds to the Remote Executor and no such error is raised. -/
theorem missing_path_env_check {V : Type} (b : AsyncBinding) (w : World V)
    (st : BindingState) (args : List (Arg V))
    (hini : st.initialized = false)
    (hsat : satisfiesCheck w b.version = true)
    (hcb : b.callbacks = some true) :
    (∀ e : EnvMap, b.optsEnv = some e → jsFalsyStr (envLookup e w.pathKeyName) = true →
      (executeAsync b w st args).result = Except.error (mreMessage w.pathKeyName) ∧
      (executeAsync b w st args).spawns = []) ∧
    (∀ e : EnvMap, b.optsEnv = some e → jsFalsyStr (envLookup e w.pathKeyName) = false →
      (executeAsync b w st args).result =
        w.functionExec (b.localExecOptions w) b.workerPath args) ∧
    (b.optsEnv = none →
      (executeAsync b w st args).result =
        w.functionExec (b.localExecOptions w) b.workerPath args) := by
  have hcb' : (b.callbacks == some true) = true := by simp [hcb]
  refine ⟨?_, ?_, ?_⟩
  · intro e he hf
    unfold executeAsync
    rw [initBinding_of_satisfies w b.version b.optsEnv st hini hsat]
    simp [hcb', missingPathKey, he, hf]
  · intro e he hf
    unfold executeAsync
    rw [initBinding_of_satisfies w b.version b.optsEnv st hini hsat]
    simp [hcb', missingPathKey, he, hf]
  · intro he
    unfold executeAsync
    rw [initBinding_of_satisfies w b.version b.optsEnv st hini hsat]
    simp [hcb', missingPathKey, he]

/-- C6 (amended) witness: an override lacking `PATH` fails with the
MissingRequiredEnvironment error and zero spawns; an override with a
non-empty `PATH` goes to the Remote Executor. -/
theorem missing_path_env_check_witness :
    satisfiesCheck wTest bCbNoPath.version = true ∧
    bCbNoPath.callbacks = some true ∧
    (executeAsync bCbNoPath wTest initialState [Arg.value 1]).result =
      Except.error (mreMessage "PATH") ∧
    (executeAsync bCbNoPath wTest initialState [Arg.value 1]).spawns = [] ∧
    (executeAsync bCbGoodEnv wTest initialState [Arg.value 1]).result =
      wTest.functionExec (bCbGoodEnv.localExecOptions wTest) "/w.js" [Arg.value 1] := by
  have h1 := (missing_path_env_check bCbNoPath wTest initialState [Arg.value 1]
    rfl rfl rfl).1 [("HOME", "/root")] rfl rfl
  have h2 := (missing_path_env_check bCbGoodEnv wTest initialState [Arg.value 1]
    rfl rfl rfl).2.1 envTest rfl rfl
  exact ⟨rfl, rfl, h1.1, h1.2, h2⟩

/-- C8: the immediate-call surfaces are definitionally a freshly bound caller
applied once — `callSync` is `bindSync(...)(...)` and `call` is
`bind(...)(...)` — and the two delivery shapes of the bound async caller wrap
one underlying `execute` outcome: without a trailing function the caller
returns a promise settling with the `execute` result, and with a trailing
callback appended to the same arguments it delivers exactly the same
`execute` result through the callback. -/
theorem surfaces_share_one_execute {V : Type} :
    (∀ (version workerPath : String) (o : Option CallOptions) (w : World V)
        (args : List (Arg V)),
      callSync version workerPath o w args =
        boundSyncCaller (bindSync version workerPath o w.processEnv) w initialState args) ∧
    (∀ (version workerPath : String) (o : Option CallOptions) (w : World V)
        (args : List (Arg V)),
      call version workerPath o w args =
        boundAsyncCaller (bind version workerPath o w.processEnv) w initialState args) ∧
    (∀ (b : AsyncBinding) (w : World V) (st : BindingState) (args : List (Arg V)) (k : Nat),
      hasTrailingCallback args = false →
      (boundAsyncCaller b w st args).outcome =
        CallOutcome.promise (executeAsync b w st args).result ∧
      (boundAsyncCaller b w st (args ++ [Arg.func k])).outcome =
        CallOutcome.callbackDone [callbackEvent (executeAsync b w st args).result]) := by
  refine ⟨fun _ _ _ _ _ => rfl, fun _ _ _ _ _ => rfl, ?_⟩
  intro b w st args k hnf
  constructor
  · unfold boundAsyncCaller
    simp [hnf]
  · have hc : hasTrailingCallback (args ++ [Arg.func (V := V) k]) = true := by
      simp [hasTrailingCallback, Arg.isFunction]
    unfold boundAsyncCaller
    simp [hc]

/-- C8 witness: on the fixture binding, the promise outcome for `[1]` and the
callback outcome for `[1, callback]` deliver the same `execute` result. -/
theorem surfaces_share_one_execute_witness :
    hasTrailingCallback ([Arg.value 1] : List (Arg Nat)) = false ∧
    (boundAsyncCaller bPlain wTest initialState [Arg.value 1]).outcome =
      CallOutcome.promise (executeAsync bPlain wTest initialState [Arg.value 1]).result ∧
    (boundAsyncCaller bPlain wTest initialState ([Arg.value 1] ++ [Arg.func 5])).outcome =
      CallOutcome.callbackDone
        [callbackEvent (executeAsync bPlain wTest initialState [Arg.value 1]).result] := by
  have h := (surfaces_share_one_execute (V := Nat)).2.2 bPlain wTest initialState
    [Arg.value 1] 5 rfl
  exact ⟨rfl, h.1, h.2⟩

/-- C9: when resolution is Local and the worker is not callback-style, a
worker module whose export is not a function value is returned as is: the
invocation succeeds with the export value itself and all supplied arguments
are ignored (any two argument lists give the same result). -/
theorem nonfunction_export_returned {V : Type} (b : AsyncBinding) (w : World V)
    (st : BindingState) (args args' : List (Arg V)) (v : V)
    (hini : st.initialized = true) (hsat : st.currentSatisfies = true)
    (hcb : b.callbacks ≠ some true)
    (hm : w.loadModuleSync b.workerPath b.moduleType b.interop = WorkerModule.value v) :
    (executeAsync b w st args).result = Except.ok v ∧
    (executeAsync b w st args).result = (executeAsync b w st args').result := by
  have hcb' : (b.callbacks == some true) = false := by simp [hcb]
  have key : ∀ as : List (Arg V), (executeAsync b w st as).result = Except.ok v := by
    intro as
    unfold executeAsync
    rw [initBinding_of_initialized w b.version b.optsEnv st hini]
    simp [hsat, hcb', hm]
  rw [key args, key args']
  exact ⟨rfl, rfl⟩

/-- C9 witness: the fixture world exporting the non-function value `42` makes
every invocation return `42`, whatever the arguments. -/
theorem nonfunction_export_returned_witness :
    wValueTest.loadModuleSync "/w.js" "auto" "default" = WorkerModule.value 42 ∧
    (executeAsync bPlain wValueTest stLocal [Arg.value 1]).result = Except.ok 42 ∧
    (executeAsync bPlain wValueTest stLocal [Arg.value 1]).result =
      (executeAsync bPlain wValueTest stLocal []).result := by
  have h := nonfunction_export_returned bPlain wValueTest stLocal [Arg.value 1] [] 42
    rfl rfl (by decide) rfl
  exact ⟨rfl, h.1, h.2⟩

/-- C10: when the first invocation of a bound caller fails during resolution
(the locator finds no match and `resolveVersion` throws), the binding's
memoization state is unchanged — it remains uninitialized, equal to the fresh
state — and the next invocation re-runs the full version check and Version
Locator lookup (one more locator call), for the async and the sync caller
alike. -/
theorem failed_resolution_not_memoized {V : Type} (b : AsyncBinding) (s : SyncBinding)
    (w w2 : World V) (args args2 args3 : List (Arg V))
    (hsat : satisfiesCheck w b.version = false)
    (hloc : w.locate b.version b.optsEnv = none)
    (hsat2 : satisfiesCheck w2 b.version = false)
    (hloc2 : w2.locate b.version b.optsEnv = none)
    (hsats : satisfiesCheck w s.version = false)
    (hlocs : w.locate s.version s.optsEnv = none) :
    ((executeAsync b w initialState args).result = Except.error (vnfMessage b.version) ∧
     (executeAsync b w initialState args).state = initialState ∧
     (executeAsync b w initialState args).state.initialized = false ∧
     (executeAsync b w initialState args).locatorCalls = 1) ∧
    (executeAsync b w2 (executeAsync b w initialState args).state args2).locatorCalls = 1 ∧
    ((boundSyncCaller s w initialState args3).result = Except.error (vnfMessage s.version) ∧
     (boundSyncCaller s w initialState args3).state = initialState ∧
     (boundSyncCaller s w initialState args3).locatorCalls = 1) := by
  have hb : ∀ (wx : World V) (as : List (Arg V)), satisfiesCheck wx b.version = false →
      wx.locate b.version b.optsEnv = none →
      executeAsync b wx initialState as =
        { result := Except.error (vnfMessage b.version), state := initialState,
          locatorCalls := 1, spawns := [] } := by
    intro wx as h1 h2
    unfold executeAsync
    rw [initBinding_of_locate_none wx b.version b.optsEnv initialState rfl h1 h2]
    rfl
  have hsy : boundSyncCaller s w initialState args3 =
      { result := Except.error (vnfMessage s.version), state := initialState,
        locatorCalls := 1, spawns := [] } := by
    unfold boundSyncCaller
    rw [initBinding_of_locate_none w s.version s.optsEnv initialState rfl hsats hlocs]
    rfl
  refine ⟨?_, ?_, ?_⟩
  · rw [hb w args hsat hloc]
    exact ⟨rfl, rfl, rfl, rfl⟩
  · rw [hb w args hsat hloc]
    show (executeAsync b w2 initialState args2).locatorCalls = 1
    rw [hb w2 args2 hsat2 hloc2]
  · rw [hsy]
    exact ⟨rfl, rfl, rfl⟩

/-- C10 witness: the fixture binding on the unlocatable constraint `">=99"`
fails, leaves the state fresh, and the next invocation performs a locator
call again — as does the sync binding. -/
theorem failed_resolution_not_memoized_witness :
    satisfiesCheck wTest bMissing.version = false ∧
    wTest.locate bMissing.version bMissing.optsEnv = none ∧
    (executeAsync bMissing wTest initialState [Arg.value 1]).state.initialized = false ∧
    (executeAsync bMissing wTest
      (executeAsync bMissing wTest initialState [Arg.value 1]).state
      [Arg.value 2]).locatorCalls = 1 ∧
    (boundSyncCaller sMissing wTest initialState [Arg.value 3]).locatorCalls = 1 := by
  have h := failed_resolution_not_memoized bMissing sMissing wTest wTest
    [Arg.value 1] [Arg.value 2] [Arg.value 3] rfl rfl rfl rfl rfl rfl
  exact ⟨rfl, rfl, h.1.2.2.1, h.2.1, h.2.2.2.2⟩

end NodeVersionCallLocal
